import Mathlib

/-!
Verification development for the `rust-paddle-ocr` command-line front end
(`src/main.rs`).  The engine calls (`OcrEngineManager::*`), image loading and
console I/O are external collaborators; they are modelled as parameters
(an `Engine` record of per-image results) while the orchestration logic of
`process_ocr_with_mode` and the interactive loop body of
`run_interactive_mode` is translated line by line from the source.

Output model: a run of `process_ocr_with_mode` either returns
`Except.ok lines`, where `lines` are the strings printed to stdout by
`println!` (one list element per call), or `Except.error e`; on every error
path of the source the function returns before any `println!` executes, so an
`Except.error` result carries no stdout output.
-/

namespace RustPaddleOcr

/-- Modelled from the spec: the error taxonomy of the external
`rust_paddle_ocr` library (`OcrError`), whose source is not part of this
repository.  Section 7 of the spec lists `InputError`, `EngineError` and
`OutputError`; `ImageLoadError` stands for the `From<image::ImageError>`
conversion used at the `image::open` call site (`e.into()`). -/
inductive OcrError where
  | InputError (msg : String)
  | EngineError (msg : String)
  | OutputError (msg : String)
  | ImageLoadError (msg : String)
deriving DecidableEq, Repr

/-- Decidable equality for `Except`, so that concrete runs can be checked
with `decide`. -/
instance {ε α : Type} [DecidableEq ε] [DecidableEq α] :
    DecidableEq (Except ε α) := fun a b =>
  match a, b with
  | .ok x, .ok y =>
      if h : x = y then .isTrue (by rw [h]) else .isFalse (by simp [h])
  | .error x, .error y =>
      if h : x = y then .isTrue (by rw [h]) else .isFalse (by simp [h])
  | .ok _, .error _ => .isFalse (by simp)
  | .error _, .ok _ => .isFalse (by simp)

/-- Output mode, from `enum OutputMode` in `src/main.rs`. -/
inductive OutputMode where
  | Json
  | Text
deriving DecidableEq, Repr

/-- A detected text rectangle as consumed by `process_ocr_with_mode`:
the source reads `rect.left()`, `rect.top()`, `rect.width()`, `rect.height()`
(i32, i32, u32, u32). -/
structure Rect where
  left : Int
  top : Int
  width : Nat
  height : Nat
deriving DecidableEq, Repr

/-- A cropped sub-image returned by `OcrEngineManager::get_text_images`.
The source reads only its `width()` and `height()`; `data` stands for the
pixel payload, so that distinct crops can be told apart by the
recognition function. -/
structure SubImage where
  width : Nat
  height : Nat
  data : Nat
deriving DecidableEq, Repr

/-- `struct TextBoxPosition` from `src/main.rs` (fields `left: i32`,
`top: i32`, `width: u32`, `height: u32`). -/
structure TextBoxPosition where
  left : Int
  top : Int
  width : Nat
  height : Nat
deriving DecidableEq, Repr

/-- `struct TextBox` from `src/main.rs`.  The `confidence` field is an `f32`
in the source; the program stores only the literal `1.0` in it (line 279),
so it is modelled as a rational. -/
structure TextBox where
  text : String
  confidence : ℚ
  position : TextBoxPosition
deriving DecidableEq, Repr

/-- The external engine and image loader, specialised to one image: the
outcome of `image::open`, of `OcrEngineManager::get_text_rects(&img)`,
of `OcrEngineManager::get_text_images(&img)`, of
`OcrEngineManager::recognize_text(crop)` per crop, and of the text-mode
full pipeline `OcrEngineManager::process_ocr(img)`. -/
structure Engine where
  open_image : Except String Unit
  get_text_rects : Except OcrError (List Rect)
  get_text_images : Except OcrError (List SubImage)
  recognize_text : SubImage → Except OcrError String
  process_ocr : Except OcrError (List String)

/-! ## JSON serialization (serde_json, pretty printer)

`process_ocr_with_mode` renders its results with
`serde_json::to_string_pretty`.  The definitions below embed serde_json's
`PrettyFormatter` (two-space indent, `"\n"`/`",\n"` before each array element
and object key, `": "` after a key, closing bracket on its own indented line)
specialised to the derived `Serialize` of `Vec<TextBox>`, with fields in
declaration order. -/

/-- Lower-case hexadecimal digit, as in serde_json's escape table. -/
def hexDigit (n : Nat) : Char :=
  if n < 10 then Char.ofNat (48 + n) else Char.ofNat (87 + n)

/-- serde_json's string-character escaping: `"` and `\\` are escaped, control
characters below 0x20 use the short forms `\b \t \n \f \r` or `\u00XX`;
everything else is emitted verbatim. -/
def jsonEscapeChar (c : Char) : String :=
  if c = '"' then "\\\""
  else if c = '\\' then "\\\\"
  else if c.toNat = 8 then "\\b"
  else if c.toNat = 9 then "\\t"
  else if c.toNat = 10 then "\\n"
  else if c.toNat = 12 then "\\f"
  else if c.toNat = 13 then "\\r"
  else if c.toNat < 32 then
    "\\u00" ++ String.mk [hexDigit (c.toNat / 16), hexDigit (c.toNat % 16)]
  else String.mk [c]

/-- A JSON string literal: quotes around the escaped characters. -/
def jsonString (s : String) : String :=
  "\"" ++ String.join (s.toList.map jsonEscapeChar) ++ "\""

/-- Two spaces per indentation level (serde_json `PrettyFormatter` default). -/
def jsonIndent (n : Nat) : String :=
  String.mk (List.replicate (2 * n) ' ')

/-- Rendering of the `confidence : f32` field.  serde_json renders finite
floats with ryu's shortest decimal form, which on an integral value `n`
is the digits of `n` followed by `.0`.  The program only ever stores the
literal `1.0` in this field, so the embedding covers the integral case. -/
def jsonF32 (q : ℚ) : String :=
  toString q.num ++ ".0"

/-- Derived `Serialize` of `TextBoxPosition` under the pretty formatter,
where `d` is the indentation level of the object's braces. -/
def jsonOfPosition (d : Nat) (p : TextBoxPosition) : String :=
  "\x7b\n"
    ++ jsonIndent (d + 1) ++ "\"left\": " ++ toString p.left ++ ",\n"
    ++ jsonIndent (d + 1) ++ "\"top\": " ++ toString p.top ++ ",\n"
    ++ jsonIndent (d + 1) ++ "\"width\": " ++ toString p.width ++ ",\n"
    ++ jsonIndent (d + 1) ++ "\"height\": " ++ toString p.height ++ "\n"
    ++ jsonIndent d ++ "\x7d"

/-- Derived `Serialize` of `TextBox` under the pretty formatter, fields in
declaration order `text`, `confidence`, `position`. -/
def jsonOfTextBox (d : Nat) (b : TextBox) : String :=
  "\x7b\n"
    ++ jsonIndent (d + 1) ++ "\"text\": " ++ jsonString b.text ++ ",\n"
    ++ jsonIndent (d + 1) ++ "\"confidence\": " ++ jsonF32 b.confidence ++ ",\n"
    ++ jsonIndent (d + 1) ++ "\"position\": " ++ jsonOfPosition (d + 1) b.position ++ "\n"
    ++ jsonIndent d ++ "\x7d"

/-- Pretty rendering of `Vec<TextBox>`: an empty vector renders as `[]`;
otherwise each element is placed on its own indented line. -/
def jsonOfTextBoxes (l : List TextBox) : String :=
  match l with
  | [] => "[]"
  | b :: bs =>
      "[\n" ++ jsonIndent 1 ++ jsonOfTextBox 1 b
        ++ String.join (bs.map (fun x => ",\n" ++ jsonIndent 1 ++ jsonOfTextBox 1 x))
        ++ "\n]"

/-- `serde_json::to_string_pretty(&results)` at line 295.  The derived
`Serialize` implementations of `TextBox` and `TextBoxPosition` are
infallible, so the `Result` is always `Ok`; the source's `map_err` into
`OcrError::OutputError` is kept at the call site. -/
def to_string_pretty (l : List TextBox) : Except String String :=
  .ok (jsonOfTextBoxes l)

/-! ## The aggregation loop and `process_ocr_with_mode` -/

/-- One iteration of the `for (i, (rect, text_img)) in
text_rects.iter().zip(text_images.iter())` loop (lines 266–292): a crop of
zero width or zero height is skipped (`continue`), otherwise recognition is
attempted; on success a `TextBox` with confidence `1.0` is pushed, on failure
the error is logged and nothing is pushed. -/
def step_region (eng : Engine) (pr : Rect × SubImage) : Option TextBox :=
  if pr.2.width = 0 ∨ pr.2.height = 0 then
    none
  else
    match eng.recognize_text pr.2 with
    | .ok text =>
        some { text := text
               confidence := 1
               position := { left := pr.1.left
                             top := pr.1.top
                             width := pr.1.width
                             height := pr.1.height } }
    | .error _ => none

/-- The `results` vector accumulated by the loop, as a `filterMap` over the
zipped (rect, crop) pairs. -/
def aggregate_regions (eng : Engine) (pairs : List (Rect × SubImage)) : List TextBox :=
  pairs.filterMap (step_region eng)

/-- `process_ocr_with_mode` from `src/main.rs` (lines 219–313), with the
engine and image loader abstracted into `eng` and stdout modelled as the
returned list of printed lines. -/
def process_ocr_with_mode (eng : Engine) (mode : OutputMode) :
    Except OcrError (List String) :=
  match eng.open_image with
  | .error e => .error (.ImageLoadError e)
  | .ok _ =>
    match mode with
    | .Json =>
      match eng.get_text_rects with
      | .error e => .error e
      | .ok text_rects =>
        if text_rects.isEmpty then
          .ok ["[]"]
        else
          match eng.get_text_images with
          | .error e => .error e
          | .ok text_images =>
            if text_rects.length ≠ text_images.length then
              .error (.EngineError "Inconsistent detection results")
            else
              let results := aggregate_regions eng (text_rects.zip text_images)
              match to_string_pretty results with
              | .ok json => .ok [json]
              | .error e => .error (.OutputError e)
    | .Text =>
      match eng.process_ocr with
      | .error e => .error e
      | .ok texts => .ok texts

/-! ## Interactive mode (`run_interactive_mode`, lines 142–199)

One iteration of the interactive loop is pure once the three external
inputs are abstracted: the line read from stdin, the filesystem's answer to
`path.exists()`, and — when the confirmation prompt fires — the answer line
read from stdin. -/

/-- Rust `char::is_whitespace` (the Unicode `White_Space` property), used by
`str::trim`. -/
def rust_is_whitespace (c : Char) : Bool :=
  c.toNat = 0x09 || c.toNat = 0x0A || c.toNat = 0x0B || c.toNat = 0x0C ||
  c.toNat = 0x0D || c.toNat = 0x20 || c.toNat = 0x85 || c.toNat = 0xA0 ||
  c.toNat = 0x1680 || (0x2000 ≤ c.toNat && c.toNat ≤ 0x200A) ||
  c.toNat = 0x2028 || c.toNat = 0x2029 || c.toNat = 0x202F ||
  c.toNat = 0x205F || c.toNat = 0x3000

/-- Rust `str::trim`: remove leading and trailing whitespace. -/
def rust_trim (s : String) : String :=
  String.mk
    (((s.toList.dropWhile rust_is_whitespace).reverse.dropWhile
        rust_is_whitespace).reverse)

/-- Rust `char` ASCII lowercasing, as used by `eq_ignore_ascii_case`. -/
def ascii_lower (c : Char) : Char :=
  if 'A' ≤ c && c ≤ 'Z' then Char.ofNat (c.toNat + 32) else c

/-- Rust `str::eq_ignore_ascii_case`: equality after ASCII lowercasing of
both sides. -/
def eq_ignore_ascii_case (a b : String) : Bool :=
  a.toList.map ascii_lower == b.toList.map ascii_lower

/-- Rust `str::to_lowercase` restricted to its ASCII action; the extension
strings the program compares against are all ASCII. -/
def to_lowercase (s : String) : String :=
  String.mk (s.toList.map ascii_lower)

/-- Splitting a character list on a separator character (structural
counterpart of `str::split`). -/
def split_on_char (sep : Char) : List Char → List (List Char)
  | [] => [[]]
  | c :: rest =>
    match split_on_char sep rest with
    | [] => if c = sep then [[], []] else [[c]]
    | h :: t => if c = sep then [] :: h :: t else (c :: h) :: t

/-- Rust `Path::file_name` for a Unix path string without `.` or `..`
components (the forms the interactive loop receives): the last nonempty
`/`-separated segment. -/
def path_file_name (p : String) : Option String :=
  match (((split_on_char '/' p.toList).map String.mk).filter
      (fun s => s ≠ "")).getLast? with
  | none => none
  | some s => if s = "." || s = ".." then none else some s

/-- Index of the last `.` in a character list, if any. -/
def last_dot_idx (cs : List Char) : Option Nat :=
  ((List.range cs.length).filter (fun i => cs.getD i ' ' = '.')).getLast?

/-- Rust `Path::extension`: the part of the file name after its final `.`;
`none` when there is no file name, no `.`, or the only `.` leads the name
(hidden files such as `.gitignore`). -/
def path_extension (p : String) : Option String :=
  match path_file_name p with
  | none => none
  | some name =>
    match last_dot_idx name.toList with
    | none => none
    | some i => if i = 0 then none else some (String.mk (name.toList.drop (i + 1)))

/-- Lines 171–174: `path.extension().and_then(to_str).map(to_lowercase)
.unwrap_or_default()`. -/
def extension_lower (p : String) : String :=
  ((path_extension p).map to_lowercase).getD ""

/-- The recognized image extensions of line 176. -/
def image_extensions : List String :=
  ["jpg", "jpeg", "png", "bmp", "tiff", "webp"]

/-- Line 176: membership of the lower-cased extension in the recognized set. -/
def is_image_ext (p : String) : Bool :=
  image_extensions.contains (extension_lower p)

/-- What one iteration of the loop decides to do with a trimmed input line,
before any confirmation answer is read. -/
inductive InputDecision where
  /-- Lines 151–154: the exit command breaks the loop. -/
  | exitSession
  /-- Lines 157–159: empty input, `continue`. -/
  | ignoreEmpty
  /-- Lines 165–168: the path does not exist, print an error and `continue`. -/
  | rejectMissing
  /-- Lines 176–183: unrecognized extension, print the warning and the
  confirmation prompt before reading an answer. -/
  | confirmFirst (path : String)
  /-- Line 191: recognized image extension, process at once. -/
  | processNow (path : String)
deriving DecidableEq, Repr

/-- Lines 148–191 of `run_interactive_mode`, up to (but not including) the
confirmation read: trim the line, test the exit commands, the empty line,
`path.exists()` (abstracted as `exists_file`), then the extension set. -/
def decide_input (exists_file : String → Bool) (raw : String) : InputDecision :=
  let input := rust_trim raw
  if eq_ignore_ascii_case input "exit" || eq_ignore_ascii_case input "quit" then
    .exitSession
  else if input = "" then
    .ignoreEmpty
  else if ¬ exists_file input then
    .rejectMissing
  else if ¬ is_image_ext input then
    .confirmFirst input
  else
    .processNow input

/-- Lines 183–185: the confirmation answer is trimmed and the loop proceeds
iff it equals `y` or `yes` ASCII-case-insensitively (the source `continue`s
when it is neither). -/
def decide_confirm (raw : String) : Bool :=
  let confirm := rust_trim raw
  eq_ignore_ascii_case confirm "y" || eq_ignore_ascii_case confirm "yes"

/-- Observable outcome of one full loop iteration. -/
inductive StepOutcome where
  /-- The loop terminated (`break`). -/
  | exited
  /-- Control returned to the `> ` prompt without calling
  `process_ocr_with_mode`; `prompted` records whether the confirmation
  prompt was issued first. -/
  | looped (prompted : Bool)
  /-- `process_ocr_with_mode` was invoked on `path`; `prompted` records
  whether a confirmation prompt preceded it. -/
  | invoked (path : String) (prompted : Bool)
deriving DecidableEq, Repr

/-- One full iteration of the interactive loop: `confirm_line` is the line
stdin would supply if the confirmation prompt fires (it is read only in the
`confirmFirst` case). -/
def session_step (exists_file : String → Bool) (raw : String)
    (confirm_line : String) : StepOutcome :=
  match decide_input exists_file raw with
  | .exitSession => .exited
  | .ignoreEmpty => .looped false
  | .rejectMissing => .looped false
  | .confirmFirst path =>
      if decide_confirm confirm_line then .invoked path true else .looped true
  | .processNow path => .invoked path false

/-! ## Concrete engines used to instantiate the theorems -/

/-- An engine whose detection finds one region but whose crop extraction
returns no sub-image: the count-mismatch case. -/
def EngMismatch : Engine :=
  { open_image := .ok ()
  , get_text_rects := .ok [⟨0, 0, 3, 3⟩]
  , get_text_images := .ok []
  , recognize_text := fun _ => .ok "x"
  , process_ocr := .ok [] }

/-- The scenario of the spec's final testable property: one region
`(left 10, top 5, width 40, height 12)` whose crop recognizes as
`Hello`. -/
def EngHello : Engine :=
  { open_image := .ok ()
  , get_text_rects := .ok [⟨10, 5, 40, 12⟩]
  , get_text_images := .ok [⟨40, 12, 0⟩]
  , recognize_text := fun _ => .ok "Hello"
  , process_ocr := .ok [] }

/-- Three regions with three crops; recognition fails on the middle crop
(`data = 1`) and succeeds on the others. -/
def EngPartial : Engine :=
  { open_image := .ok ()
  , get_text_rects := .ok [⟨0, 0, 5, 5⟩, ⟨0, 10, 5, 5⟩, ⟨0, 20, 5, 5⟩]
  , get_text_images := .ok [⟨5, 5, 0⟩, ⟨5, 5, 1⟩, ⟨5, 5, 2⟩]
  , recognize_text := fun s =>
      if s.data = 1 then .error (.EngineError "recognition failed")
      else .ok ("t" ++ toString s.data)
  , process_ocr := .ok [] }

/-- An engine that detects no region; its crop extraction and recognition
results are errors, so any run that consulted them could not return `ok`. -/
def EngEmpty : Engine :=
  { open_image := .ok ()
  , get_text_rects := .ok []
  , get_text_images := .error (.EngineError "crops were requested")
  , recognize_text := fun _ => .error (.EngineError "recognition was requested")
  , process_ocr := .ok [] }

/-! ## Theorems for the claims about `process_ocr_with_mode` -/

/-- Shared helper: once the JSON path has a nonempty region list and a crop
list of equal length, the run succeeds and prints exactly the pretty-printed
aggregation of the zipped pairs. -/
theorem process_json_ok (eng : Engine) (rs : List Rect) (tis : List SubImage)
    (ho : eng.open_image = .ok ())
    (hr : eng.get_text_rects = .ok rs)
    (hne : rs ≠ [])
    (hi : eng.get_text_images = .ok tis)
    (hlen : rs.length = tis.length) :
    process_ocr_with_mode eng .Json
      = .ok [jsonOfTextBoxes (aggregate_regions eng (rs.zip tis))] := by
  have hb : rs.isEmpty = false := by
    cases rs with
    | nil => exact absurd rfl hne
    | cons a l => rfl
  simp [process_ocr_with_mode, ho, hr, hi, hb, hlen, to_string_pretty]

/-- C1: in JSON-mode processing of one image, if the number of detected
regions differs from the number of extracted sub-images, the whole request
fails with `EngineError "Inconsistent detection results"`; since an
`Except.error` run prints nothing, no partial `TextBox` sequence is produced
or printed. -/
theorem C1_count_mismatch_engine_error (eng : Engine) (rs : List Rect)
    (tis : List SubImage)
    (ho : eng.open_image = .ok ())
    (hr : eng.get_text_rects = .ok rs)
    (hne : rs ≠ [])
    (hi : eng.get_text_images = .ok tis)
    (hlen : rs.length ≠ tis.length) :
    process_ocr_with_mode eng .Json
      = .error (.EngineError "Inconsistent detection results") := by
  have hb : rs.isEmpty = false := by
    cases rs with
    | nil => exact absurd rfl hne
    | cons a l => rfl
  simp [process_ocr_with_mode, ho, hr, hi, hb, hlen]

/-- C1 witness: the mismatch engine (one region, zero crops) fails with the
engine error. -/
theorem C1_count_mismatch_engine_error_witness :
    process_ocr_with_mode EngMismatch .Json
      = .error (.EngineError "Inconsistent detection results") :=
  C1_count_mismatch_engine_error EngMismatch [⟨0, 0, 3, 3⟩] []
    rfl rfl (by decide) rfl (by decide)

/-- C2 counterexample: in the spec's one-region `Hello` scenario the run
does not print the compact one-line JSON string the claim demands, because
line 295 of the source uses `serde_json::to_string_pretty`. -/
theorem C2_compact_output_refuted :
    process_ocr_with_mode EngHello .Json
      ≠ .ok ["[\x7b\"text\":\"Hello\",\"confidence\":1.0,\"position\":\x7b\"left\":10,\"top\":5,\"width\":40,\"height\":12\x7d\x7d]"] := by
  decide

/-- C2 (amended): in the one-region `Hello` scenario the JSON-mode output is
exactly the pretty-printed form of the same array, two-space indented, with
the same fields in the same order. -/
theorem C2_pretty_output :
    process_ocr_with_mode EngHello .Json
      = .ok ["[\n  \x7b\n    \"text\": \"Hello\",\n    \"confidence\": 1.0,\n    \"position\": \x7b\n      \"left\": 10,\n      \"top\": 5,\n      \"width\": 40,\n      \"height\": 12\n    \x7d\n  \x7d\n]"] := by
  decide

/-- C3: a recognition failure on one paired entry removes exactly that entry
from the aggregation — the entries around it are aggregated unchanged — and
a run whose region and crop lists pair up still returns `ok` (never an
`EngineError`) no matter what the per-crop recognitions return. -/
theorem C3_recognition_failure_isolated (eng : Engine)
    (pre suf : List (Rect × SubImage)) (rect : Rect) (simg : SubImage)
    (e : OcrError)
    (hw : simg.width ≠ 0) (hh : simg.height ≠ 0)
    (hrec : eng.recognize_text simg = .error e) :
    aggregate_regions eng (pre ++ (rect, simg) :: suf)
        = aggregate_regions eng pre ++ aggregate_regions eng suf
    ∧ ∀ rs tis, eng.open_image = .ok () → eng.get_text_rects = .ok rs →
        rs ≠ [] → eng.get_text_images = .ok tis → rs.length = tis.length →
        process_ocr_with_mode eng .Json
          = .ok [jsonOfTextBoxes (aggregate_regions eng (rs.zip tis))] := by
  have hstep : step_region eng (rect, simg) = none := by
    simp [step_region, hw, hh, hrec]
  constructor
  · simp [aggregate_regions, List.filterMap_append, List.filterMap_cons, hstep]
  · intro rs tis ho hr hne hi hlen
    exact process_json_ok eng rs tis ho hr hne hi hlen

/-- C3 witness: with `EngPartial`, recognition fails on the middle of three
entries; the two neighbours aggregate as if the middle entry were absent and
the whole run still succeeds. -/
theorem C3_recognition_failure_isolated_witness :
    aggregate_regions EngPartial
        ([(⟨0, 0, 5, 5⟩, ⟨5, 5, 0⟩)] ++ (⟨0, 10, 5, 5⟩, ⟨5, 5, 1⟩)
          :: [(⟨0, 20, 5, 5⟩, ⟨5, 5, 2⟩)])
      = aggregate_regions EngPartial [(⟨0, 0, 5, 5⟩, ⟨5, 5, 0⟩)]
          ++ aggregate_regions EngPartial [(⟨0, 20, 5, 5⟩, ⟨5, 5, 2⟩)]
    ∧ process_ocr_with_mode EngPartial .Json
        = .ok [jsonOfTextBoxes (aggregate_regions EngPartial
            ([⟨0, 0, 5, 5⟩, ⟨0, 10, 5, 5⟩, ⟨0, 20, 5, 5⟩].zip
              [⟨5, 5, 0⟩, ⟨5, 5, 1⟩, ⟨5, 5, 2⟩]))] := by
  have h := C3_recognition_failure_isolated EngPartial
    [(⟨0, 0, 5, 5⟩, ⟨5, 5, 0⟩)] [(⟨0, 20, 5, 5⟩, ⟨5, 5, 2⟩)]
    ⟨0, 10, 5, 5⟩ ⟨5, 5, 1⟩ (.EngineError "recognition failed")
    (by decide) (by decide) (by decide)
  exact ⟨h.1, h.2 _ _ rfl rfl (by decide) rfl rfl⟩

/-- C4: aggregation preserves detection order — whenever entries `a` and `b`
occur in that order among the zipped pairs and both yield a `TextBox`, the
output is the surrounding aggregations with `a`'s record strictly before
`b`'s; nothing is re-sorted. -/
theorem C4_detection_order_preserved (eng : Engine)
    (pre mid suf : List (Rect × SubImage)) (a b : Rect × SubImage)
    (ra rb : TextBox)
    (ha : step_region eng a = some ra) (hb : step_region eng b = some rb) :
    aggregate_regions eng (pre ++ a :: (mid ++ b :: suf))
      = aggregate_regions eng pre
          ++ ra :: (aggregate_regions eng mid
              ++ rb :: aggregate_regions eng suf) := by
  simp [aggregate_regions, List.filterMap_append, List.filterMap_cons, ha, hb]

/-- C4 witness: in `EngPartial` the first and third entries both succeed and
their records appear in that order around the (empty) surroundings. -/
theorem C4_detection_order_preserved_witness :
    aggregate_regions EngPartial
        ([] ++ (⟨0, 0, 5, 5⟩, ⟨5, 5, 0⟩)
          :: ([] ++ (⟨0, 20, 5, 5⟩, ⟨5, 5, 2⟩) :: []))
      = aggregate_regions EngPartial []
          ++ ⟨"t0", 1, ⟨0, 0, 5, 5⟩⟩
            :: (aggregate_regions EngPartial []
              ++ ⟨"t2", 1, ⟨0, 20, 5, 5⟩⟩ :: aggregate_regions EngPartial []) :=
  C4_detection_order_preserved EngPartial [] [] []
    (⟨0, 0, 5, 5⟩, ⟨5, 5, 0⟩) (⟨0, 20, 5, 5⟩, ⟨5, 5, 2⟩)
    ⟨"t0", 1, ⟨0, 0, 5, 5⟩⟩ ⟨"t2", 1, ⟨0, 20, 5, 5⟩⟩ (by decide) (by decide)

/-- C5: an image with zero detected regions prints exactly `[]` in JSON mode
and the run succeeds — the crop-extraction and recognition results are never
consulted, so they are left universally quantified (and may even be errors);
in text mode a full-pipeline result of zero strings prints nothing. -/
theorem C5_empty_detection (engJ engT : Engine)
    (hoJ : engJ.open_image = .ok ())
    (hrJ : engJ.get_text_rects = .ok [])
    (hoT : engT.open_image = .ok ())
    (hpT : engT.process_ocr = .ok []) :
    process_ocr_with_mode engJ .Json = .ok ["[]"]
    ∧ process_ocr_with_mode engT .Text = .ok [] := by
  constructor
  · simp [process_ocr_with_mode, hoJ, hrJ]
  · simp [process_ocr_with_mode, hoT, hpT]

/-- C5 witness: `EngEmpty` detects nothing and would error if its crop
extraction or recognition were consulted; JSON mode prints `[]` and text
mode prints nothing. -/
theorem C5_empty_detection_witness :
    process_ocr_with_mode EngEmpty .Json = .ok ["[]"]
    ∧ process_ocr_with_mode EngEmpty .Text = .ok [] :=
  C5_empty_detection EngEmpty EngEmpty rfl rfl rfl rfl

/-- C6: a sub-image of zero width or zero height yields no record — the
branch is taken before `recognize_text` is consulted, for every engine —
and the aggregation of any surrounding entries is unchanged. -/
theorem C6_zero_dimension_skipped (eng : Engine)
    (pre suf : List (Rect × SubImage)) (rect : Rect) (simg : SubImage)
    (h : simg.width = 0 ∨ simg.height = 0) :
    step_region eng (rect, simg) = none
    ∧ aggregate_regions eng (pre ++ (rect, simg) :: suf)
        = aggregate_regions eng pre ++ aggregate_regions eng suf := by
  have hstep : step_region eng (rect, simg) = none := by
    rcases h with h | h <;> simp [step_region, h]
  exact ⟨hstep, by
    simp [aggregate_regions, List.filterMap_append, List.filterMap_cons, hstep]⟩

/-- C6 witness: a zero-width crop between two valid entries of `EngPartial`
contributes nothing and leaves its neighbours' aggregation unchanged. -/
theorem C6_zero_dimension_skipped_witness :
    step_region EngPartial (⟨0, 30, 5, 5⟩, ⟨0, 5, 7⟩) = none
    ∧ aggregate_regions EngPartial
        ([(⟨0, 0, 5, 5⟩, ⟨5, 5, 0⟩)] ++ (⟨0, 30, 5, 5⟩, ⟨0, 5, 7⟩)
          :: [(⟨0, 20, 5, 5⟩, ⟨5, 5, 2⟩)])
        = aggregate_regions EngPartial [(⟨0, 0, 5, 5⟩, ⟨5, 5, 0⟩)]
            ++ aggregate_regions EngPartial [(⟨0, 20, 5, 5⟩, ⟨5, 5, 2⟩)] :=
  C6_zero_dimension_skipped EngPartial
    [(⟨0, 0, 5, 5⟩, ⟨5, 5, 0⟩)] [(⟨0, 20, 5, 5⟩, ⟨5, 5, 2⟩)]
    ⟨0, 30, 5, 5⟩ ⟨0, 5, 7⟩ (Or.inl rfl)

/-! ## Theorems for the claims about the interactive loop -/

/-- C7: an input line terminates the session exactly when its trimmed
content ASCII-case-insensitively equals `exit` or `quit` — the only normal
loop exit — and a line that is empty after trimming is a no-op iteration:
it never terminates the session, never reaches the path validation, and
never triggers a processing attempt. -/
theorem C7_exit_directive (ef : String → Bool) (raw : String) :
    (decide_input ef raw = .exitSession
      ↔ (eq_ignore_ascii_case (rust_trim raw) "exit" = true
          ∨ eq_ignore_ascii_case (rust_trim raw) "quit" = true))
    ∧ (rust_trim raw = "" →
        decide_input ef raw = .ignoreEmpty
        ∧ ∀ ans, session_step ef raw ans = .looped false) := by
  constructor
  · cases hE : eq_ignore_ascii_case (rust_trim raw) "exit" <;>
      cases hQ : eq_ignore_ascii_case (rust_trim raw) "quit" <;>
      (simp [decide_input, hE, hQ]; try (split_ifs <;> simp))
  · intro h
    have hE : eq_ignore_ascii_case (rust_trim raw) "exit" = false := by
      rw [h]; decide
    have hQ : eq_ignore_ascii_case (rust_trim raw) "quit" = false := by
      rw [h]; decide
    have hd : decide_input ef raw = .ignoreEmpty := by
      simp [decide_input, h]
      exact ⟨by decide, by decide⟩
    exact ⟨hd, fun ans => by simp [session_step, hd]⟩

/-- C7 witness: `EXIT` (with surrounding whitespace, upper-case) exits even
when a file of that name exists; a whitespace-only line loops without any
processing attempt. -/
theorem C7_exit_directive_witness :
    decide_input (fun _ => true) " EXIT " = .exitSession
    ∧ decide_input (fun _ => true) " " = .ignoreEmpty
    ∧ session_step (fun _ => true) " " "y" = .looped false := by
  have h1 := C7_exit_directive (fun _ => true) " EXIT "
  have h2 := C7_exit_directive (fun _ => true) " "
  exact ⟨h1.1.mpr (Or.inl (by decide)), (h2.2 (by decide)).1,
    (h2.2 (by decide)).2 "y"⟩

/-- C8: an existing file whose lower-cased extension is outside
`jpg, jpeg, png, bmp, tiff, webp` enters the confirmation prompt; an answer
that does not trim-and-ASCII-case-insensitively equal `y` or `yes` returns
to the prompt without invoking the engine, and an affirmative answer
proceeds to processing of the trimmed path. -/
theorem C8_unrecognized_ext_confirms (ef : String → Bool) (raw : String)
    (hx : eq_ignore_ascii_case (rust_trim raw) "exit" = false)
    (hq : eq_ignore_ascii_case (rust_trim raw) "quit" = false)
    (hne : rust_trim raw ≠ "")
    (hex : ef (rust_trim raw) = true)
    (himg : is_image_ext (rust_trim raw) = false) :
    decide_input ef raw = .confirmFirst (rust_trim raw)
    ∧ (∀ ans, decide_confirm ans = false →
        session_step ef raw ans = .looped true)
    ∧ (∀ ans, decide_confirm ans = true →
        session_step ef raw ans = .invoked (rust_trim raw) true)
    ∧ (∀ ans, decide_confirm ans = true
        ↔ (eq_ignore_ascii_case (rust_trim ans) "y" = true
            ∨ eq_ignore_ascii_case (rust_trim ans) "yes" = true)) := by
  have hd : decide_input ef raw = .confirmFirst (rust_trim raw) := by
    simp [decide_input, hx, hq, hne, hex, himg]
  exact ⟨hd, fun ans hc => by simp [session_step, hd, hc],
    fun ans hc => by simp [session_step, hd, hc],
    fun ans => by simp [decide_confirm]⟩

/-- C8 witness: the existing file `doc.txt` prompts for confirmation;
answer `n` loops back without invoking the engine, answer ` Y ` invokes
processing on `doc.txt`. -/
theorem C8_unrecognized_ext_confirms_witness :
    decide_input (fun _ => true) "doc.txt" = .confirmFirst "doc.txt"
    ∧ session_step (fun _ => true) "doc.txt" "n" = .looped true
    ∧ session_step (fun _ => true) "doc.txt" " Y " = .invoked "doc.txt" true := by
  have h := C8_unrecognized_ext_confirms (fun _ => true) "doc.txt"
    (by decide) (by decide) (by decide) rfl (by decide)
  exact ⟨h.1.trans (by decide), h.2.1 "n" (by decide),
    (h.2.2.1 " Y " (by decide)).trans (by decide)⟩

/-- C9: an input line naming a nonexistent file is rejected — the iteration
returns to the prompt with no confirmation prompt and no engine
invocation, whatever stdin would have answered. -/
theorem C9_missing_file_rejected (ef : String → Bool) (raw : String)
    (hx : eq_ignore_ascii_case (rust_trim raw) "exit" = false)
    (hq : eq_ignore_ascii_case (rust_trim raw) "quit" = false)
    (hne : rust_trim raw ≠ "")
    (hmiss : ef (rust_trim raw) = false) :
    decide_input ef raw = .rejectMissing
    ∧ ∀ ans, session_step ef raw ans = .looped false := by
  have hd : decide_input ef raw = .rejectMissing := by
    simp [decide_input, hx, hq, hne, hmiss]
  exact ⟨hd, fun ans => by simp [session_step, hd]⟩

/-- C9 witness: the nonexistent `ghost.png` is rejected and the iteration
loops without invoking the engine. -/
theorem C9_missing_file_rejected_witness :
    decide_input (fun _ => false) "ghost.png" = .rejectMissing
    ∧ session_step (fun _ => false) "ghost.png" "y" = .looped false := by
  have h := C9_missing_file_rejected (fun _ => false) "ghost.png"
    (by decide) (by decide) (by decide) rfl
  exact ⟨h.1, h.2 "y"⟩

/-- C10: the exit-directive test precedes path interpretation — a trimmed
`exit`/`quit` line exits for every filesystem, in particular when a file of
that name exists, and the iteration never reaches the confirmation or
processing outcomes. -/
theorem C10_exit_checked_before_path (ef : String → Bool) (raw : String)
    (h : eq_ignore_ascii_case (rust_trim raw) "exit" = true
        ∨ eq_ignore_ascii_case (rust_trim raw) "quit" = true) :
    decide_input ef raw = .exitSession
    ∧ (∀ ans, session_step ef raw ans = .exited)
    ∧ ∀ p, decide_input ef raw ≠ .confirmFirst p
        ∧ decide_input ef raw ≠ .processNow p := by
  have hd : decide_input ef raw = .exitSession := by
    rcases h with h | h <;> simp [decide_input, h]
  exact ⟨hd, fun ans => by simp [session_step, hd],
    fun p => by simp [hd]⟩

/-- C10 witness: the line `quit` exits the session on a filesystem where a
file named `quit` exists, and is not treated as a path. -/
theorem C10_exit_checked_before_path_witness :
    decide_input (fun _ => true) "quit" = .exitSession
    ∧ session_step (fun _ => true) "quit" "y" = .exited := by
  have h := C10_exit_checked_before_path (fun _ => true) "quit"
    (Or.inr (by decide))
  exact ⟨h.1, h.2.1 "y"⟩

end RustPaddleOcr
